import Mathlib

/-!
Verification of the Game of Life simulator (`src/main.c`).

The development shallowly embeds the simulation core of the program:
the cell grid (a byte array indexed row-major), the bit flags
`CELL_ALIVE` / `CELL_REVIVE` / `CELL_DIE`, the edge-clamped neighbor
count, the two-pass evaluate/commit generation step, the per-frame
event handling (F1 start/stop with snapshot, F2 clear, mouse painting,
scroll-wheel speed changes), the tick scheduler, and the save/load
byte dumps.  Machine bytes are modelled as `Nat`, C `int`s as `Int`.
-/

namespace GameOfLife

/-- Bit 0 of a cell byte: the cell is alive (`#define CELL_ALIVE 0x1`). -/
def CELL_ALIVE : Nat := 1

/-- Bit 1 of a cell byte: the cell will be revived next tick (`#define CELL_REVIVE 0x2`). -/
def CELL_REVIVE : Nat := 2

/-- Bit 2 of a cell byte: the cell will die next tick (`#define CELL_DIE 0x4`). -/
def CELL_DIE : Nat := 4

/-- `#define GRID_WIDTH 256`. -/
def GRID_WIDTH : Nat := 256

/-- `#define GRID_HEIGHT 144`. -/
def GRID_HEIGHT : Nat := 144

/-- `#define PIXEL_SIZE 5`. -/
def PIXEL_SIZE : Nat := 5

/-- The cell array `uint8_t cells[GRID_WIDTH * GRID_HEIGHT]`, modelled as a
total function from the linear (row-major) index to the cell byte. -/
def Grid : Type := Nat → Nat

/-- The test `cells[i] & CELL_ALIVE` used throughout the program. -/
def alive (b : Nat) : Bool := b &&& CELL_ALIVE != 0

/-- Row-major linear index of cell `(x, y)`: `x + GRID_WIDTH * y`. -/
def toIdx (c : Nat × Nat) : Nat := c.1 + GRID_WIDTH * c.2

/-- The live-neighbor count computed by the eight guarded reads in
`main.c` lines 320-341: each of the eight Moore neighbors is counted
when its border-check guard passes and its `CELL_ALIVE` bit is set. -/
def liveNeighbors (g : Grid) (x y : Nat) : Nat :=
  (if x ≠ 0 ∧ y ≠ 0 ∧ alive (g ((x - 1) + GRID_WIDTH * (y - 1))) then 1 else 0) +
  (if y ≠ 0 ∧ alive (g (x + GRID_WIDTH * (y - 1))) then 1 else 0) +
  (if y ≠ 0 ∧ x ≠ GRID_WIDTH - 1 ∧ alive (g ((x + 1) + GRID_WIDTH * (y - 1))) then 1 else 0) +
  (if x ≠ 0 ∧ alive (g ((x - 1) + GRID_WIDTH * y)) then 1 else 0) +
  (if x ≠ GRID_WIDTH - 1 ∧ alive (g ((x + 1) + GRID_WIDTH * y)) then 1 else 0) +
  (if x ≠ 0 ∧ y ≠ GRID_HEIGHT - 1 ∧ alive (g ((x - 1) + GRID_WIDTH * (y + 1))) then 1 else 0) +
  (if y ≠ GRID_HEIGHT - 1 ∧ alive (g (x + GRID_WIDTH * (y + 1))) then 1 else 0) +
  (if x ≠ GRID_WIDTH - 1 ∧ y ≠ GRID_HEIGHT - 1 ∧ alive (g ((x + 1) + GRID_WIDTH * (y + 1))) then 1 else 0)

/-- The byte stored at cell `(x, y)` by the evaluation pass
(`main.c` lines 343-361): alive cells with 2 or 3 neighbors are left
alone (`continue`), dead cells with 3 neighbors get `CELL_REVIVE`
or-ed in, every other cell gets `CELL_DIE` or-ed in -- except dead
cells with exactly 2 neighbors, which are also left alone. -/
def evalByte (g : Grid) (x y : Nat) : Nat :=
  if liveNeighbors g x y = 2 ∨ liveNeighbors g x y = 3 then
    if alive (g (x + GRID_WIDTH * y)) then g (x + GRID_WIDTH * y)
    else if liveNeighbors g x y = 3 then g (x + GRID_WIDTH * y) ||| CELL_REVIVE
    else g (x + GRID_WIDTH * y)
  else g (x + GRID_WIDTH * y) ||| CELL_DIE

/-- One iteration of the evaluation loop body: cell `c` of the (possibly
already intent-marked) array is updated in place. -/
def evalStep (g : Grid) (c : Nat × Nat) : Grid :=
  fun j => if j = toIdx c then evalByte g c.1 c.2 else g j

/-- The order in which the nested `for` loops of `main.c` visit the grid:
`y` outer over `[0, GRID_HEIGHT)`, `x` inner over `[0, GRID_WIDTH)`. -/
def codeOrder : List (Nat × Nat) :=
  (List.range GRID_HEIGHT).flatMap fun y => (List.range GRID_WIDTH).map fun x => (x, y)

/-- The evaluation pass: the loop body folded over a visit order. -/
def evalPass (order : List (Nat × Nat)) (g : Grid) : Grid :=
  order.foldl evalStep g

/-- The commit applied to one cell byte (`main.c` lines 370-377):
a pending `CELL_REVIVE` makes the byte exactly `CELL_ALIVE`, otherwise a
pending `CELL_DIE` makes it exactly `0`, otherwise it is untouched. -/
def commitCell (b : Nat) : Nat :=
  if b &&& CELL_REVIVE != 0 then CELL_ALIVE
  else if b &&& CELL_DIE != 0 then 0
  else b

/-- One iteration of the commit loop body. -/
def commitStep (g : Grid) (c : Nat × Nat) : Grid :=
  fun j => if j = toIdx c then commitCell (g j) else g j

/-- The commit pass over the whole grid, in the code's visit order. -/
def commitPass (g : Grid) : Grid :=
  codeOrder.foldl commitStep g

/-- One full generation advance: the evaluation pass followed by the
commit pass (`main.c` lines 315-379). -/
def stepGrid (g : Grid) : Grid :=
  commitPass (evalPass codeOrder g)

/-- The all-dead grid (the initial contents of the zero-initialized
global `cells` array). -/
def zeroGrid : Grid := fun _ => 0

example : liveNeighbors zeroGrid 0 0 = 0 := by decide
example : commitCell 2 = 1 := by decide
example : commitCell 5 = 0 := by decide
example : commitCell 1 = 1 := by decide

/-! ### Bit-level facts about cell bytes -/

lemma or_preserves_bit0 (b k : Nat) (hk : k % 2 = 0) : (b ||| k) % 2 = b % 2 := by
  have h := Nat.testBit_or b k 0
  rw [Nat.testBit_zero, Nat.testBit_zero, Nat.testBit_zero, hk] at h
  simp only [Nat.zero_ne_one, decide_False, Bool.or_false] at h
  rw [decide_eq_decide] at h
  have hb := Nat.mod_two_eq_zero_or_one b
  have hbk := Nat.mod_two_eq_zero_or_one (b ||| k)
  omega

lemma or_revive_and_alive (b : Nat) :
    (b ||| CELL_REVIVE) &&& CELL_ALIVE = b &&& CELL_ALIVE := by
  rw [CELL_ALIVE, Nat.and_one_is_mod, Nat.and_one_is_mod]
  exact or_preserves_bit0 b CELL_REVIVE rfl

lemma or_die_and_alive (b : Nat) :
    (b ||| CELL_DIE) &&& CELL_ALIVE = b &&& CELL_ALIVE := by
  rw [CELL_ALIVE, Nat.and_one_is_mod, Nat.and_one_is_mod]
  exact or_preserves_bit0 b CELL_DIE rfl

lemma alive_congr {a b : Nat} (h : a &&& CELL_ALIVE = b &&& CELL_ALIVE) :
    alive a = alive b := by
  unfold alive
  rw [h]

/-! ### The evaluation pass never touches the alive bit -/

lemma evalByte_and_alive (g : Grid) (x y : Nat) :
    evalByte g x y &&& CELL_ALIVE = g (x + GRID_WIDTH * y) &&& CELL_ALIVE := by
  unfold evalByte
  split_ifs <;> simp [or_revive_and_alive, or_die_and_alive]

lemma evalStep_and_alive (g : Grid) (c : Nat × Nat) (j : Nat) :
    evalStep g c j &&& CELL_ALIVE = g j &&& CELL_ALIVE := by
  unfold evalStep
  split_ifs with h
  · subst h
    exact evalByte_and_alive g c.1 c.2
  · rfl

lemma evalPass_and_alive (order : List (Nat × Nat)) (g : Grid) (j : Nat) :
    evalPass order g j &&& CELL_ALIVE = g j &&& CELL_ALIVE := by
  induction order generalizing g with
  | nil => rfl
  | cons c rest ih =>
    show evalPass rest (evalStep g c) j &&& CELL_ALIVE = _
    rw [ih (evalStep g c), evalStep_and_alive]

/-! ### Neighbor counts depend only on alive bits -/

lemma liveNeighbors_congr {g g' : Grid}
    (h : ∀ j, g j &&& CELL_ALIVE = g' j &&& CELL_ALIVE) (x y : Nat) :
    liveNeighbors g x y = liveNeighbors g' x y := by
  have ha : ∀ j, alive (g j) = alive (g' j) := fun j => alive_congr (h j)
  unfold liveNeighbors
  simp only [ha]

lemma evalByte_congr {g g' : Grid}
    (h : ∀ j, g j &&& CELL_ALIVE = g' j &&& CELL_ALIVE) (x y : Nat)
    (hb : g (x + GRID_WIDTH * y) = g' (x + GRID_WIDTH * y)) :
    evalByte g x y = evalByte g' x y := by
  unfold evalByte
  rw [liveNeighbors_congr h, hb]

/-! ### Combinatorics of the loop visit order -/

lemma mem_codeOrder {c : Nat × Nat} :
    c ∈ codeOrder ↔ c.1 < GRID_WIDTH ∧ c.2 < GRID_HEIGHT := by
  unfold codeOrder
  simp only [List.mem_flatMap, List.mem_map, List.mem_range]
  constructor
  · rintro ⟨y, hy, x, hx, rfl⟩
    exact ⟨hx, hy⟩
  · rintro ⟨h1, h2⟩
    exact ⟨c.2, h2, c.1, h1, rfl⟩

lemma toIdx_mod {c : Nat × Nat} (h : c.1 < GRID_WIDTH) :
    toIdx c % GRID_WIDTH = c.1 := by
  unfold toIdx
  rw [Nat.add_mul_mod_self_left]
  exact Nat.mod_eq_of_lt h

lemma toIdx_div {c : Nat × Nat} (h : c.1 < GRID_WIDTH) :
    toIdx c / GRID_WIDTH = c.2 := by
  unfold toIdx
  rw [Nat.add_mul_div_left _ _ (by norm_num [GRID_WIDTH]), Nat.div_eq_of_lt h,
    Nat.zero_add]

lemma mem_codeOrder_map_toIdx {j : Nat} :
    j ∈ codeOrder.map toIdx ↔ j < GRID_WIDTH * GRID_HEIGHT := by
  simp only [List.mem_map]
  constructor
  · rintro ⟨c, hc, rfl⟩
    have h := mem_codeOrder.1 hc
    unfold toIdx GRID_WIDTH GRID_HEIGHT at h ⊢
    omega
  · intro hj
    refine ⟨(j % GRID_WIDTH, j / GRID_WIDTH), mem_codeOrder.2 ⟨?_, ?_⟩, ?_⟩
    · exact Nat.mod_lt _ (by norm_num [GRID_WIDTH])
    · unfold GRID_WIDTH GRID_HEIGHT at hj ⊢
      omega
    · unfold toIdx GRID_WIDTH
      unfold GRID_WIDTH GRID_HEIGHT at hj
      omega

lemma codeOrder_map_toIdx_nodup : (codeOrder.map toIdx).Nodup := by
  unfold codeOrder
  rw [List.map_flatMap, List.nodup_flatMap]
  constructor
  · intro y _
    rw [List.map_map]
    refine List.Nodup.map ?_ (List.nodup_range _)
    intro a b hab
    have : a + GRID_WIDTH * y = b + GRID_WIDTH * y := hab
    exact Nat.add_right_cancel this
  · refine List.Pairwise.imp ?_ (List.pairwise_lt_range _)
    intro a b hab j hja hjb
    dsimp only at hja hjb
    rw [List.map_map, List.mem_map] at hja hjb
    obtain ⟨xa, hxa, hja⟩ := hja
    obtain ⟨xb, hxb, hjb⟩ := hjb
    rw [List.mem_range] at hxa hxb
    have h1 : xa + GRID_WIDTH * a = j := hja
    have h2 : xb + GRID_WIDTH * b = j := hjb
    unfold GRID_WIDTH at h1 h2 hxa hxb
    omega

/-! ### Pointwise characterization of the two passes -/

/-- The value of the whole evaluation pass as a pointwise function of the
starting grid: every in-grid cell holds its `evalByte`, computed entirely
from the starting grid, and out-of-grid indices are untouched. -/
def evalGrid (g : Grid) : Grid :=
  fun j =>
    if j < GRID_WIDTH * GRID_HEIGHT then evalByte g (j % GRID_WIDTH) (j / GRID_WIDTH)
    else g j

lemma evalPass_char (order : List (Nat × Nat)) (g₀ : Grid) :
    ∀ g, (∀ j, g j &&& CELL_ALIVE = g₀ j &&& CELL_ALIVE) →
    (∀ c ∈ order, g (toIdx c) = g₀ (toIdx c)) →
    (order.map toIdx).Nodup →
    (∀ c ∈ order, c.1 < GRID_WIDTH) →
    ∀ j, evalPass order g j =
      if j ∈ order.map toIdx then evalByte g₀ (j % GRID_WIDTH) (j / GRID_WIDTH)
      else g j := by
  induction order with
  | nil =>
    intro g _ _ _ _ j
    simp [evalPass]
  | cons c rest ih =>
    intro g hbit hbyte hnd hcoord j
    rw [List.map_cons, List.nodup_cons] at hnd
    have hbit' : ∀ j, evalStep g c j &&& CELL_ALIVE = g₀ j &&& CELL_ALIVE :=
      fun j => (evalStep_and_alive g c j).trans (hbit j)
    have hbyte' : ∀ d ∈ rest, evalStep g c (toIdx d) = g₀ (toIdx d) := by
      intro d hd
      have hne : toIdx d ≠ toIdx c := by
        intro h
        exact hnd.1 (h ▸ List.mem_map_of_mem toIdx hd)
      unfold evalStep
      rw [if_neg hne]
      exact hbyte d (List.mem_cons_of_mem _ hd)
    have hrest := ih (evalStep g c) hbit' hbyte' hnd.2
      (fun d hd => hcoord d (List.mem_cons_of_mem _ hd)) j
    show evalPass rest (evalStep g c) j = _
    rw [hrest]
    by_cases hj : j ∈ rest.map toIdx
    · rw [if_pos hj, if_pos (by simp [hj])]
    · rw [if_neg hj]
      by_cases hjc : j = toIdx c
      · subst hjc
        rw [if_pos (by simp)]
        unfold evalStep
        rw [if_pos rfl,
          evalByte_congr hbit c.1 c.2 (hbyte c (List.mem_cons_self _ _)),
          toIdx_mod (hcoord c (List.mem_cons_self _ _)),
          toIdx_div (hcoord c (List.mem_cons_self _ _))]
      · rw [if_neg (by simp [hjc, hj])]
        unfold evalStep
        rw [if_neg hjc]

lemma commitFold_char (order : List (Nat × Nat)) :
    ∀ g, (order.map toIdx).Nodup →
    ∀ j, order.foldl commitStep g j =
      if j ∈ order.map toIdx then commitCell (g j) else g j := by
  induction order with
  | nil =>
    intro g _ j
    simp
  | cons c rest ih =>
    intro g hnd j
    rw [List.map_cons, List.nodup_cons] at hnd
    have hrest := ih (commitStep g c) hnd.2 j
    show rest.foldl commitStep (commitStep g c) j = _
    rw [hrest]
    by_cases hj : j ∈ rest.map toIdx
    · have hne : j ≠ toIdx c := by
        intro h
        exact hnd.1 (h ▸ hj)
      rw [if_pos hj, if_pos (by simp [hj])]
      unfold commitStep
      rw [if_neg hne]
    · rw [if_neg hj]
      by_cases hjc : j = toIdx c
      · subst hjc
        rw [if_pos (by simp)]
        unfold commitStep
        rw [if_pos rfl]
      · rw [if_neg (by simp [hjc, hj])]
        unfold commitStep
        rw [if_neg hjc]

lemma evalPass_eq_evalGrid (order : List (Nat × Nat)) (h : order.Perm codeOrder)
    (g : Grid) : evalPass order g = evalGrid g := by
  funext j
  have hmap : (order.map toIdx).Perm (codeOrder.map toIdx) := h.map toIdx
  rw [evalPass_char order g g (fun _ => rfl) (fun _ _ => rfl)
    (hmap.nodup_iff.2 codeOrder_map_toIdx_nodup)
    (fun c hc => (mem_codeOrder.1 (h.mem_iff.1 hc)).1) j]
  unfold evalGrid
  rw [if_congr (Iff.trans hmap.mem_iff mem_codeOrder_map_toIdx) rfl rfl]

lemma commitPass_eq (g : Grid) (j : Nat) :
    commitPass g j =
      if j < GRID_WIDTH * GRID_HEIGHT then commitCell (g j) else g j := by
  unfold commitPass
  rw [commitFold_char codeOrder g codeOrder_map_toIdx_nodup j,
    if_congr mem_codeOrder_map_toIdx rfl rfl]

/-- The whole generation advance, pointwise: every in-grid cell is the
commit of its evaluated byte, computed from the starting grid. -/
lemma stepGrid_eq (g : Grid) (j : Nat) :
    stepGrid g j =
      if j < GRID_WIDTH * GRID_HEIGHT then
        commitCell (evalByte g (j % GRID_WIDTH) (j / GRID_WIDTH))
      else g j := by
  unfold stepGrid
  rw [commitPass_eq, evalPass_eq_evalGrid codeOrder (List.Perm.refl _)]
  unfold evalGrid
  split_ifs with h
  · rfl
  · rfl

/-! ### Spec-side neighbor count

The definitions below follow the specification's words ("Examines the 8
Moore-neighborhood cells; any neighbor coordinate that would fall outside
[0,W)x[0,H) is simply excluded from the count"), to be compared against
the code's `liveNeighbors`. -/

/-- A neighbor coordinate (as signed integers) counts exactly when it lies
inside `[0,W) x [0,H)` and the cell there is alive. -/
def specAlive (g : Grid) (x y : Int) : Bool :=
  decide (0 ≤ x ∧ x < (GRID_WIDTH : Int) ∧ 0 ≤ y ∧ y < (GRID_HEIGHT : Int)) &&
    alive (g (x.toNat + GRID_WIDTH * y.toNat))

/-- The eight Moore-neighborhood offsets. -/
def mooreOffsets : List (Int × Int) :=
  [(-1, -1), (0, -1), (1, -1), (-1, 0), (1, 0), (-1, 1), (0, 1), (1, 1)]

/-- Spec-side live-neighbor count: how many of the eight Moore neighbors
are in bounds and alive. -/
def specLiveNeighbors (g : Grid) (x y : Nat) : Nat :=
  mooreOffsets.countP fun d => specAlive g ((x : Int) + d.1) ((y : Int) + d.2)

lemma specAlive_in (g : Grid) {x y : Int}
    (h : 0 ≤ x ∧ x < (GRID_WIDTH : Int) ∧ 0 ≤ y ∧ y < (GRID_HEIGHT : Int)) :
    specAlive g x y = alive (g (x.toNat + GRID_WIDTH * y.toNat)) := by
  unfold specAlive
  rw [decide_eq_true h, Bool.true_and]

lemma specAlive_out (g : Grid) {x y : Int}
    (h : ¬(0 ≤ x ∧ x < (GRID_WIDTH : Int) ∧ 0 ≤ y ∧ y < (GRID_HEIGHT : Int))) :
    specAlive g x y = false := by
  unfold specAlive
  rw [decide_eq_false h, Bool.false_and]

/-! ### The code's guarded count equals the spec's clamped Moore count -/

lemma specTerm_nw (g : Grid) {x y : Nat} (hx : x < GRID_WIDTH) (hy : y < GRID_HEIGHT) :
    (if specAlive g ((x : Int) + -1) ((y : Int) + -1) = true then (1 : Nat) else 0) =
    if x ≠ 0 ∧ y ≠ 0 ∧ alive (g ((x - 1) + GRID_WIDTH * (y - 1))) then 1 else 0 := by
  by_cases hx0 : x = 0
  · rw [specAlive_out g (by omega)]
    simp [hx0]
  · by_cases hy0 : y = 0
    · rw [specAlive_out g (by omega)]
      simp [hy0]
    · rw [specAlive_in g ⟨by omega, by omega, by omega, by omega⟩,
        show ((x : Int) + -1).toNat = x - 1 by omega,
        show ((y : Int) + -1).toNat = y - 1 by omega]
      simp [hx0, hy0]

lemma specTerm_n (g : Grid) {x y : Nat} (hx : x < GRID_WIDTH) (hy : y < GRID_HEIGHT) :
    (if specAlive g (x : Int) ((y : Int) + -1) = true then (1 : Nat) else 0) =
    if y ≠ 0 ∧ alive (g (x + GRID_WIDTH * (y - 1))) then 1 else 0 := by
  by_cases hy0 : y = 0
  · rw [specAlive_out g (by omega)]
    simp [hy0]
  · rw [specAlive_in g ⟨by omega, by omega, by omega, by omega⟩,
      show ((x : Int)).toNat = x by omega,
      show ((y : Int) + -1).toNat = y - 1 by omega]
    simp [hy0]

lemma specTerm_ne (g : Grid) {x y : Nat} (hx : x < GRID_WIDTH) (hy : y < GRID_HEIGHT) :
    (if specAlive g ((x : Int) + 1) ((y : Int) + -1) = true then (1 : Nat) else 0) =
    if y ≠ 0 ∧ x ≠ GRID_WIDTH - 1 ∧ alive (g ((x + 1) + GRID_WIDTH * (y - 1))) then 1 else 0 := by
  by_cases hy0 : y = 0
  · rw [specAlive_out g (by omega)]
    simp [hy0]
  · by_cases hxm : x = GRID_WIDTH - 1
    · rw [specAlive_out g (by omega)]
      simp [hxm]
    · rw [specAlive_in g ⟨by omega, by omega, by omega, by omega⟩,
        show ((x : Int) + 1).toNat = x + 1 by omega,
        show ((y : Int) + -1).toNat = y - 1 by omega]
      simp [hy0, hxm]

lemma specTerm_w (g : Grid) {x y : Nat} (hx : x < GRID_WIDTH) (hy : y < GRID_HEIGHT) :
    (if specAlive g ((x : Int) + -1) (y : Int) = true then (1 : Nat) else 0) =
    if x ≠ 0 ∧ alive (g ((x - 1) + GRID_WIDTH * y)) then 1 else 0 := by
  by_cases hx0 : x = 0
  · rw [specAlive_out g (by omega)]
    simp [hx0]
  · rw [specAlive_in g ⟨by omega, by omega, by omega, by omega⟩,
      show ((x : Int) + -1).toNat = x - 1 by omega,
      show ((y : Int)).toNat = y by omega]
    simp [hx0]

lemma specTerm_e (g : Grid) {x y : Nat} (hx : x < GRID_WIDTH) (hy : y < GRID_HEIGHT) :
    (if specAlive g ((x : Int) + 1) (y : Int) = true then (1 : Nat) else 0) =
    if x ≠ GRID_WIDTH - 1 ∧ alive (g ((x + 1) + GRID_WIDTH * y)) then 1 else 0 := by
  by_cases hxm : x = GRID_WIDTH - 1
  · rw [specAlive_out g (by omega)]
    simp [hxm]
  · rw [specAlive_in g ⟨by omega, by omega, by omega, by omega⟩,
      show ((x : Int) + 1).toNat = x + 1 by omega,
      show ((y : Int)).toNat = y by omega]
    simp [hxm]

lemma specTerm_sw (g : Grid) {x y : Nat} (hx : x < GRID_WIDTH) (hy : y < GRID_HEIGHT) :
    (if specAlive g ((x : Int) + -1) ((y : Int) + 1) = true then (1 : Nat) else 0) =
    if x ≠ 0 ∧ y ≠ GRID_HEIGHT - 1 ∧ alive (g ((x - 1) + GRID_WIDTH * (y + 1))) then 1 else 0 := by
  by_cases hx0 : x = 0
  · rw [specAlive_out g (by omega)]
    simp [hx0]
  · by_cases hym : y = GRID_HEIGHT - 1
    · rw [specAlive_out g (by omega)]
      simp [hym]
    · rw [specAlive_in g ⟨by omega, by omega, by omega, by omega⟩,
        show ((x : Int) + -1).toNat = x - 1 by omega,
        show ((y : Int) + 1).toNat = y + 1 by omega]
      simp [hx0, hym]

lemma specTerm_s (g : Grid) {x y : Nat} (hx : x < GRID_WIDTH) (hy : y < GRID_HEIGHT) :
    (if specAlive g (x : Int) ((y : Int) + 1) = true then (1 : Nat) else 0) =
    if y ≠ GRID_HEIGHT - 1 ∧ alive (g (x + GRID_WIDTH * (y + 1))) then 1 else 0 := by
  by_cases hym : y = GRID_HEIGHT - 1
  · rw [specAlive_out g (by omega)]
    simp [hym]
  · rw [specAlive_in g ⟨by omega, by omega, by omega, by omega⟩,
      show ((x : Int)).toNat = x by omega,
      show ((y : Int) + 1).toNat = y + 1 by omega]
    simp [hym]

lemma specTerm_se (g : Grid) {x y : Nat} (hx : x < GRID_WIDTH) (hy : y < GRID_HEIGHT) :
    (if specAlive g ((x : Int) + 1) ((y : Int) + 1) = true then (1 : Nat) else 0) =
    if x ≠ GRID_WIDTH - 1 ∧ y ≠ GRID_HEIGHT - 1 ∧ alive (g ((x + 1) + GRID_WIDTH * (y + 1))) then 1 else 0 := by
  by_cases hxm : x = GRID_WIDTH - 1
  · rw [specAlive_out g (by omega)]
    simp [hxm]
  · by_cases hym : y = GRID_HEIGHT - 1
    · rw [specAlive_out g (by omega)]
      simp [hym]
    · rw [specAlive_in g ⟨by omega, by omega, by omega, by omega⟩,
        show ((x : Int) + 1).toNat = x + 1 by omega,
        show ((y : Int) + 1).toNat = y + 1 by omega]
      simp [hxm, hym]

lemma liveNeighbors_eq_spec (g : Grid) (x y : Nat)
    (hx : x < GRID_WIDTH) (hy : y < GRID_HEIGHT) :
    liveNeighbors g x y = specLiveNeighbors g x y := by
  unfold specLiveNeighbors mooreOffsets
  simp only [List.countP_cons, List.countP_nil, add_zero]
  rw [specTerm_nw g hx hy, specTerm_n g hx hy, specTerm_ne g hx hy,
    specTerm_w g hx hy, specTerm_e g hx hy, specTerm_sw g hx hy,
    specTerm_s g hx hy, specTerm_se g hx hy]
  unfold liveNeighbors
  ring

/-! ### The full generation step realizes the B3/S23 rule on 0/1 grids -/

/-- Every cell byte is 0 or 1: the committed representation. -/
def Bytes01 (g : Grid) : Prop := ∀ i, g i = 0 ∨ g i = 1

/-- The standard B3/S23 Life rule, stated from the spec's words: an alive
cell with 2 or 3 live neighbors stays alive, an alive cell with any other
count dies, a dead cell with exactly 3 live neighbors becomes alive, and
every other dead cell stays dead.  Neighbor counts are the spec-side
clamped Moore counts. -/
def lifeNext (g : Grid) (x y : Nat) : Nat :=
  if alive (g (x + GRID_WIDTH * y)) then
    if specLiveNeighbors g x y = 2 ∨ specLiveNeighbors g x y = 3 then 1 else 0
  else
    if specLiveNeighbors g x y = 3 then 1 else 0

lemma stepGrid_eq_lifeNext (g : Grid) (h01 : Bytes01 g) (x y : Nat)
    (hx : x < GRID_WIDTH) (hy : y < GRID_HEIGHT) :
    stepGrid g (x + GRID_WIDTH * y) = lifeNext g x y := by
  have hidx : x + GRID_WIDTH * y < GRID_WIDTH * GRID_HEIGHT := by
    unfold GRID_WIDTH GRID_HEIGHT at *
    omega
  rw [stepGrid_eq, if_pos hidx,
    show (x + GRID_WIDTH * y) % GRID_WIDTH = x from toIdx_mod (c := (x, y)) hx,
    show (x + GRID_WIDTH * y) / GRID_WIDTH = y from toIdx_div (c := (x, y)) hx]
  unfold lifeNext
  rw [← liveNeighbors_eq_spec g x y hx hy]
  unfold evalByte
  rcases h01 (x + GRID_WIDTH * y) with hb | hb <;>
    rw [hb] <;>
    by_cases hn3 : liveNeighbors g x y = 3 <;>
    by_cases hn2 : liveNeighbors g x y = 2 <;>
    simp [hn3, hn2, alive, commitCell, CELL_ALIVE, CELL_REVIVE, CELL_DIE] <;>
    decide

/-- C1: for every grid in which each cell byte is 0 or 1, one generation
advance (evaluation pass then commit pass) produces, at every cell, exactly
the value given by the standard B3/S23 Life rule with edge-clamped Moore
neighborhoods: an alive cell with 2 or 3 live neighbors stays alive, an
alive cell with any other count becomes dead, a dead cell with exactly 3
live neighbors becomes alive, and every other dead cell stays dead. -/
theorem generation_advance_matches_life_rule (g : Grid)
    (h01 : ∀ i, g i = 0 ∨ g i = 1) (x y : Nat)
    (hx : x < GRID_WIDTH) (hy : y < GRID_HEIGHT) :
    stepGrid g (x + GRID_WIDTH * y) = lifeNext g x y :=
  stepGrid_eq_lifeNext g h01 x y hx hy

theorem generation_advance_matches_life_rule_witness :
    (∀ i, zeroGrid i = 0 ∨ zeroGrid i = 1) ∧ 0 < GRID_WIDTH ∧ 0 < GRID_HEIGHT ∧
    stepGrid zeroGrid (0 + GRID_WIDTH * 0) = lifeNext zeroGrid 0 0 :=
  ⟨fun _ => Or.inl rfl, by decide, by decide,
    generation_advance_matches_life_rule zeroGrid (fun _ => Or.inl rfl) 0 0
      (by decide) (by decide)⟩

/-- C2: during the evaluation pass the alive bit of every cell is never
modified (each loop iteration only sets pending bits), every neighbor
count taken during the pass equals the count on the committed generation-N
grid, and the intents produced are independent of the order in which the
cells are visited: any permutation of the code's visit order yields the
same array. -/
theorem eval_pass_generation_isolation (g : Grid) (order : List (Nat × Nat))
    (h : order.Perm codeOrder) :
    (∀ c j, evalStep g c j &&& CELL_ALIVE = g j &&& CELL_ALIVE) ∧
    (∀ ord x y, liveNeighbors (evalPass ord g) x y = liveNeighbors g x y) ∧
    evalPass order g = evalPass codeOrder g := by
  refine ⟨fun c j => evalStep_and_alive g c j, ?_, ?_⟩
  · intro ord x y
    exact liveNeighbors_congr (fun j => evalPass_and_alive ord g j) x y
  · rw [evalPass_eq_evalGrid order h, evalPass_eq_evalGrid codeOrder (List.Perm.refl _)]

theorem eval_pass_generation_isolation_witness :
    (∀ c j, evalStep zeroGrid c j &&& CELL_ALIVE = zeroGrid j &&& CELL_ALIVE) ∧
    (∀ ord x y, liveNeighbors (evalPass ord zeroGrid) x y = liveNeighbors zeroGrid x y) ∧
    evalPass codeOrder.reverse zeroGrid = evalPass codeOrder zeroGrid :=
  eval_pass_generation_isolation zeroGrid codeOrder.reverse (List.reverse_perm _)

/-! ### Bounds and in-bounds dependence of the neighbor count -/

lemma specAlive_congr {g g' : Grid}
    (h : ∀ i, i < GRID_WIDTH * GRID_HEIGHT → g i = g' i) (u v : Int) :
    specAlive g u v = specAlive g' u v := by
  by_cases hb : 0 ≤ u ∧ u < (GRID_WIDTH : Int) ∧ 0 ≤ v ∧ v < (GRID_HEIGHT : Int)
  · rw [specAlive_in g hb, specAlive_in g' hb,
      h (u.toNat + GRID_WIDTH * v.toNat) (by
        unfold GRID_WIDTH GRID_HEIGHT at hb ⊢
        omega)]
  · rw [specAlive_out g hb, specAlive_out g' hb]

lemma specLiveNeighbors_congr {g g' : Grid}
    (h : ∀ i, i < GRID_WIDTH * GRID_HEIGHT → g i = g' i) (x y : Nat) :
    specLiveNeighbors g x y = specLiveNeighbors g' x y := by
  unfold specLiveNeighbors
  simp only [specAlive_congr h]

lemma specLiveNeighbors_le_eight (g : Grid) (x y : Nat) :
    specLiveNeighbors g x y ≤ 8 := by
  have h := List.countP_le_length
    (fun d : Int × Int => specAlive g ((x : Int) + d.1) ((y : Int) + d.2))
    (l := mooreOffsets)
  simpa [mooreOffsets] using h

lemma liveNeighbors_corner (g : Grid) : liveNeighbors g 0 0 ≤ 3 := by
  unfold liveNeighbors
  norm_num [GRID_WIDTH, GRID_HEIGHT]
  split_ifs <;> omega

/-- C3: for every grid and every in-bounds cell, the live-neighbor count
is the clamped Moore count, lies in `[0,8]`, and depends only on the
in-bounds cells of the grid (no wraparound and no out-of-bounds reads);
for the corner cell `(0,0)` it is at most 3. -/
theorem neighbor_count_edge_clamped (g g' : Grid) (x y : Nat)
    (hx : x < GRID_WIDTH) (hy : y < GRID_HEIGHT)
    (h : ∀ i, i < GRID_WIDTH * GRID_HEIGHT → g i = g' i) :
    liveNeighbors g x y = specLiveNeighbors g x y ∧
    liveNeighbors g x y ≤ 8 ∧
    liveNeighbors g x y = liveNeighbors g' x y ∧
    liveNeighbors g 0 0 ≤ 3 := by
  refine ⟨liveNeighbors_eq_spec g x y hx hy, ?_, ?_, liveNeighbors_corner g⟩
  · rw [liveNeighbors_eq_spec g x y hx hy]
    exact specLiveNeighbors_le_eight g x y
  · rw [liveNeighbors_eq_spec g x y hx hy, liveNeighbors_eq_spec g' x y hx hy]
    exact specLiveNeighbors_congr h x y

theorem neighbor_count_edge_clamped_witness :
    0 < GRID_WIDTH ∧ 0 < GRID_HEIGHT ∧
    (liveNeighbors zeroGrid 0 0 = specLiveNeighbors zeroGrid 0 0 ∧
      liveNeighbors zeroGrid 0 0 ≤ 8 ∧
      liveNeighbors zeroGrid 0 0 = liveNeighbors zeroGrid 0 0 ∧
      liveNeighbors zeroGrid 0 0 ≤ 3) :=
  ⟨by decide, by decide,
    neighbor_count_edge_clamped zeroGrid zeroGrid 0 0 (by decide) (by decide)
      (fun _ _ => rfl)⟩

/-! ### Save and load (`main.c` F3 / F4 handlers) -/

/-- The byte stream written by
`fwrite(cells, sizeof(uint8_t), sizeof(cells) / sizeof(uint8_t), fp)`:
one byte per cell, in row-major order. -/
def saveBytes (g : Grid) : List Nat :=
  (List.range (GRID_WIDTH * GRID_HEIGHT)).map g

/-- The grid after
`fread(cells, sizeof(uint32_t), sizeof(cells) / sizeof(uint32_t), fp)` on a
file holding `bytes`, starting from array contents `prev`: the file bytes
are copied in order into the array, at most `4 * (sizeof(cells) / 4)`
of them (the read is requested in 4-byte units), the rest of the array is
left as it was. -/
def loadGrid (prev : Grid) (bytes : List Nat) : Grid :=
  fun i =>
    if i < min bytes.length (4 * (GRID_WIDTH * GRID_HEIGHT / 4)) then bytes.getD i 0
    else prev i

/-- C4: saving writes the grid as a flat dump of exactly
`W*H = 36864` single-byte cell records (byte `i` is the cell at row-major
index `i`), the 4-byte read granularity of the load path covers that
length exactly, and loading a file produced by save restores every cell
byte (save-then-load round trip). -/
theorem save_load_roundtrip (g prev : Grid) (i : Nat)
    (hi : i < GRID_WIDTH * GRID_HEIGHT) :
    (saveBytes g).length = GRID_WIDTH * GRID_HEIGHT ∧
    GRID_WIDTH * GRID_HEIGHT = 36864 ∧
    4 * (GRID_WIDTH * GRID_HEIGHT / 4) = GRID_WIDTH * GRID_HEIGHT ∧
    (saveBytes g).getD i 0 = g i ∧
    loadGrid prev (saveBytes g) i = g i := by
  have hlen : (saveBytes g).length = GRID_WIDTH * GRID_HEIGHT := by
    unfold saveBytes
    rw [List.length_map, List.length_range]
  have hget : (saveBytes g).getD i 0 = g i := by
    unfold saveBytes
    rw [List.getD_eq_getElem _ _ (by
      rw [List.length_map, List.length_range]
      exact hi)]
    rw [List.getElem_map, List.getElem_range]
  refine ⟨hlen, by decide, by decide, hget, ?_⟩
  unfold loadGrid
  rw [if_pos, hget]
  rw [hlen]
  have h4 : 4 * (GRID_WIDTH * GRID_HEIGHT / 4) = GRID_WIDTH * GRID_HEIGHT := by decide
  rw [h4, min_self]
  exact hi

theorem save_load_roundtrip_witness :
    0 < GRID_WIDTH * GRID_HEIGHT ∧
    loadGrid zeroGrid (saveBytes zeroGrid) 0 = zeroGrid 0 :=
  ⟨by decide, (save_load_roundtrip zeroGrid zeroGrid 0 (by decide)).2.2.2.2⟩

/-! ### The per-frame state machine of the main loop -/

/-- The mutable state of the main loop that the simulation core touches:
the cell array, the `previous_simul` snapshot, the `s_started` flag, the
`tick` / `max_tick` counters (C `int`s, modelled as `Int`), and the two
mouse-button flags. -/
structure SimState where
  cells : Grid
  previous_simul : Grid
  s_started : Bool
  tick : Int
  max_tick : Int
  add_btn_down : Bool
  rem_btn_down : Bool

/-- The input events handled by the `SDL_PollEvent` switch that affect the
simulation state: F1/F2 key-ups, mouse button downs/ups, and scroll-wheel
motion (`event.wheel.y`). -/
inductive Event where
  | keyF1
  | keyF2
  | mouseDownLeft
  | mouseDownRight
  | mouseUpLeft
  | mouseUpRight
  | wheel (y : Int)
deriving DecidableEq

/-- One iteration of the event switch (`main.c` lines 131-260). -/
def processEvent (s : SimState) (e : Event) : SimState :=
  match e with
  | .keyF1 =>
    if !s.s_started then
      { s with s_started := !s.s_started, previous_simul := s.cells }
    else
      { s with s_started := !s.s_started }
  | .keyF2 =>
    if !s.s_started then
      { s with cells := fun i => if i < GRID_WIDTH * GRID_HEIGHT then 0 else s.cells i }
    else s
  | .mouseDownLeft => { s with add_btn_down := true }
  | .mouseDownRight => { s with rem_btn_down := true }
  | .mouseUpLeft => { s with add_btn_down := false }
  | .mouseUpRight => { s with rem_btn_down := false }
  | .wheel y =>
    if y < 0 then { s with max_tick := s.max_tick + 1 }
    else if y > 0 then
      { s with max_tick := if s.max_tick - 1 ≤ 0 then 1 else s.max_tick - 1 }
    else s

/-- The per-frame inputs: the drained event queue and the mouse position
returned by `SDL_GetMouseState`. -/
structure FrameInput where
  events : List Event
  mouseX : Nat
  mouseY : Nat

/-- The state after the inner `SDL_PollEvent` loop of one frame. -/
def postEvents (inp : FrameInput) (s : SimState) : SimState :=
  inp.events.foldl processEvent s

/-- Writing one cell of the array. -/
def setCell (g : Grid) (i v : Nat) : Grid :=
  fun j => if j = i then v else g j

/-- The mouse-paint block (`main.c` lines 286-307): only when the
simulation is not started, the cell under the mouse is set to
`CELL_ALIVE` (left button held) or `0` (right button held). -/
def editPhase (inp : FrameInput) (s : SimState) : SimState :=
  if s.s_started then s
  else if s.add_btn_down then
    { s with cells := (setCell s.cells
        (inp.mouseX / PIXEL_SIZE + GRID_WIDTH * (inp.mouseY / PIXEL_SIZE)) CELL_ALIVE) }
  else if s.rem_btn_down then
    { s with cells := (setCell s.cells
        (inp.mouseX / PIXEL_SIZE + GRID_WIDTH * (inp.mouseY / PIXEL_SIZE)) 0) }
  else s

/-- The simulation-update block (`main.c` lines 310-384): while started,
once `tick > max_tick` the generation advances and `tick` is reset to 0. -/
def simPhase (s : SimState) : SimState :=
  if s.s_started ∧ s.tick > s.max_tick then
    { s with cells := stepGrid s.cells, tick := 0 }
  else s

/-- One full iteration of the main window loop, ending with the
unconditional `tick++` (`main.c` line 399). -/
def frame (inp : FrameInput) (s : SimState) : SimState :=
  let s3 := simPhase (editPhase inp (postEvents inp s))
  { s3 with tick := s3.tick + 1 }

/-- Whether the frame performs a generation advance. -/
def frameAdvances (inp : FrameInput) (s : SimState) : Bool :=
  let s2 := editPhase inp (postEvents inp s)
  s2.s_started && decide (s2.tick > s2.max_tick)

/-- Running a sequence of frames. -/
def applyFrames (inps : List FrameInput) (s : SimState) : SimState :=
  inps.foldl (fun t i => frame i t) s

/-- The state at program start: zero-initialized global arrays,
`s_started = false`, `tick = 0`, `max_tick = 1`, buttons up. -/
def initState : SimState :=
  { cells := zeroGrid
    previous_simul := zeroGrid
    s_started := false
    tick := 0
    max_tick := 1
    add_btn_down := false
    rem_btn_down := false }

/-- A frame input carrying no events. -/
def idleInput : FrameInput :=
  { events := [], mouseX := 0, mouseY := 0 }

/-- The initial state with the simulation toggled on. -/
def runningState : SimState :=
  { initState with s_started := true }

/-! ### Frame-level preservation lemmas -/

lemma processEvent_tick (s : SimState) (e : Event) :
    (processEvent s e).tick = s.tick := by
  cases e <;> unfold processEvent <;> dsimp only <;> split_ifs <;> rfl

lemma processEvent_no_f1_started (s : SimState) {e : Event} (he : e ≠ Event.keyF1) :
    (processEvent s e).s_started = s.s_started := by
  cases e <;> unfold processEvent <;> dsimp only <;> split_ifs <;>
    first
    | rfl
    | exact absurd rfl he

lemma processEvent_no_f1_previous (s : SimState) {e : Event} (he : e ≠ Event.keyF1) :
    (processEvent s e).previous_simul = s.previous_simul := by
  cases e <;> unfold processEvent <;> dsimp only <;> split_ifs <;>
    first
    | rfl
    | exact absurd rfl he

lemma processEvent_started_cells {s : SimState} (h : s.s_started = true) (e : Event) :
    (processEvent s e).cells = s.cells := by
  cases e <;> unfold processEvent <;> dsimp only <;> split_ifs <;>
    first
    | rfl
    | simp_all

lemma postEvents_tick_fold :
    ∀ (es : List Event) (s : SimState), (es.foldl processEvent s).tick = s.tick := by
  intro es
  induction es with
  | nil => intro s; rfl
  | cons e rest ih =>
    intro s
    rw [List.foldl_cons, ih, processEvent_tick]

lemma postEvents_tick (inp : FrameInput) (s : SimState) :
    (postEvents inp s).tick = s.tick :=
  postEvents_tick_fold inp.events s

lemma postEvents_no_f1 :
    ∀ (es : List Event), Event.keyF1 ∉ es → ∀ s : SimState,
      (es.foldl processEvent s).s_started = s.s_started ∧
      (es.foldl processEvent s).previous_simul = s.previous_simul ∧
      (s.s_started = true → (es.foldl processEvent s).cells = s.cells) := by
  intro es
  induction es with
  | nil => intro _ s; exact ⟨rfl, rfl, fun _ => rfl⟩
  | cons e rest ih =>
    intro hf1 s
    have he : e ≠ Event.keyF1 := by
      rintro rfl
      exact hf1 (List.mem_cons_self _ _)
    obtain ⟨h1, h2, h3⟩ := ih (fun hm => hf1 (List.mem_cons_of_mem _ hm)) (processEvent s e)
    rw [List.foldl_cons]
    refine ⟨h1.trans (processEvent_no_f1_started s he),
      h2.trans (processEvent_no_f1_previous s he), fun hs => ?_⟩
    rw [h3 (by rw [processEvent_no_f1_started s he]; exact hs),
      processEvent_started_cells hs e]

lemma editPhase_started (inp : FrameInput) (s : SimState) :
    (editPhase inp s).s_started = s.s_started := by
  unfold editPhase
  split_ifs <;> rfl

lemma editPhase_tick (inp : FrameInput) (s : SimState) :
    (editPhase inp s).tick = s.tick := by
  unfold editPhase
  split_ifs <;> rfl

lemma editPhase_max_tick (inp : FrameInput) (s : SimState) :
    (editPhase inp s).max_tick = s.max_tick := by
  unfold editPhase
  split_ifs <;> rfl

lemma editPhase_previous (inp : FrameInput) (s : SimState) :
    (editPhase inp s).previous_simul = s.previous_simul := by
  unfold editPhase
  split_ifs <;> rfl

lemma editPhase_cells_of_started {s : SimState} (h : s.s_started = true)
    (inp : FrameInput) : (editPhase inp s).cells = s.cells := by
  unfold editPhase
  rw [if_pos h]

lemma simPhase_started (s : SimState) : (simPhase s).s_started = s.s_started := by
  unfold simPhase
  split_ifs <;> rfl

lemma simPhase_previous (s : SimState) :
    (simPhase s).previous_simul = s.previous_simul := by
  unfold simPhase
  split_ifs <;> rfl

lemma simPhase_cells (s : SimState) :
    (simPhase s).cells =
      if s.s_started ∧ s.tick > s.max_tick then stepGrid s.cells else s.cells := by
  unfold simPhase
  split_ifs <;> dsimp only

lemma simPhase_tick (s : SimState) :
    (simPhase s).tick =
      if s.s_started ∧ s.tick > s.max_tick then 0 else s.tick := by
  unfold simPhase
  split_ifs <;> dsimp only

lemma frame_previous_of_running {s : SimState} (h : s.s_started = true)
    (inp : FrameInput) (hf1 : Event.keyF1 ∉ inp.events) :
    (frame inp s).previous_simul = s.previous_simul ∧
    (frame inp s).s_started = true := by
  obtain ⟨h1, h2, _⟩ := postEvents_no_f1 inp.events hf1 s
  constructor
  · show (simPhase (editPhase inp (postEvents inp s))).previous_simul = _
    rw [simPhase_previous, editPhase_previous]
    exact h2
  · show (simPhase (editPhase inp (postEvents inp s))).s_started = true
    rw [simPhase_started, editPhase_started]
    exact h1.trans h

lemma applyFrames_running (inps : List FrameInput)
    (hrun : ∀ inp ∈ inps, Event.keyF1 ∉ inp.events) :
    ∀ t : SimState, t.s_started = true →
      (applyFrames inps t).s_started = true ∧
      (applyFrames inps t).previous_simul = t.previous_simul := by
  induction inps with
  | nil => intro t ht; exact ⟨ht, rfl⟩
  | cons inp rest ih =>
    intro t ht
    obtain ⟨hp, hs⟩ := frame_previous_of_running ht inp (hrun inp (List.mem_cons_self _ _))
    obtain ⟨ih1, ih2⟩ := ih (fun i hi => hrun i (List.mem_cons_of_mem _ hi)) (frame inp t) hs
    exact ⟨ih1, ih2.trans hp⟩

/-! ### C5: tick scheduling -/

/-- C5: the tick counter advances by one each frame while the simulation
is running; a generation advance happens exactly on the frames where the
counter exceeds the configured threshold, and on those frames the counter
is reset to 0 before the end-of-frame increment. -/
theorem tick_counter_gates_generations (s : SimState) (inp : FrameInput)
    (h : (postEvents inp s).s_started = true) :
    frameAdvances inp s = decide (s.tick > (postEvents inp s).max_tick) ∧
    (s.tick > (postEvents inp s).max_tick →
      (simPhase (editPhase inp (postEvents inp s))).tick = 0) ∧
    (frame inp s).tick =
      (if s.tick > (postEvents inp s).max_tick then 0 else s.tick) + 1 := by
  have ht : (editPhase inp (postEvents inp s)).tick = s.tick := by
    rw [editPhase_tick, postEvents_tick]
  have hm : (editPhase inp (postEvents inp s)).max_tick = (postEvents inp s).max_tick :=
    editPhase_max_tick inp (postEvents inp s)
  have hs : (editPhase inp (postEvents inp s)).s_started = true := by
    rw [editPhase_started]
    exact h
  refine ⟨?_, ?_, ?_⟩
  · show ((editPhase inp (postEvents inp s)).s_started &&
      decide ((editPhase inp (postEvents inp s)).tick >
        (editPhase inp (postEvents inp s)).max_tick)) = _
    rw [hs, ht, hm, Bool.true_and]
  · intro hgt
    rw [simPhase_tick, if_pos ⟨hs, by rw [ht, hm]; exact hgt⟩]
  · show (simPhase (editPhase inp (postEvents inp s))).tick + 1 = _
    rw [simPhase_tick, ht, hm, hs]
    simp

theorem tick_counter_gates_generations_witness :
    (postEvents idleInput runningState).s_started = true ∧
    frameAdvances idleInput runningState =
      decide (runningState.tick > (postEvents idleInput runningState).max_tick) ∧
    (frame idleInput runningState).tick =
      (if runningState.tick > (postEvents idleInput runningState).max_tick then 0
        else runningState.tick) + 1 := by
  have h := tick_counter_gates_generations runningState idleInput rfl
  exact ⟨rfl, h.1, h.2.2⟩

/-! ### C6: start captures the snapshot, stepping never writes it -/

/-- C6: toggling from paused to running copies the whole current grid into
`previous_simul`, and any following frames that do not press F1 (so the
simulation keeps running, including every generation advance) leave the
snapshot byte-for-byte equal to the grid as it was at the moment of
starting. -/
theorem start_captures_snapshot (s : SimState) (h : s.s_started = false)
    (inps : List FrameInput) (hrun : ∀ inp ∈ inps, Event.keyF1 ∉ inp.events) :
    (processEvent s Event.keyF1).s_started = true ∧
    (processEvent s Event.keyF1).previous_simul = s.cells ∧
    (applyFrames inps (processEvent s Event.keyF1)).s_started = true ∧
    (applyFrames inps (processEvent s Event.keyF1)).previous_simul = s.cells := by
  have h1 : (processEvent s Event.keyF1).s_started = true := by
    unfold processEvent
    rw [if_pos (by rw [h]; rfl)]
    rw [h]
    rfl
  have h2 : (processEvent s Event.keyF1).previous_simul = s.cells := by
    unfold processEvent
    rw [if_pos (by rw [h]; rfl)]
  obtain ⟨h3, h4⟩ := applyFrames_running inps hrun (processEvent s Event.keyF1) h1
  exact ⟨h1, h2, h3, h4.trans h2⟩

theorem start_captures_snapshot_witness :
    initState.s_started = false ∧
    (processEvent initState Event.keyF1).previous_simul = initState.cells ∧
    (applyFrames [idleInput] (processEvent initState Event.keyF1)).previous_simul =
      initState.cells := by
  have h := start_captures_snapshot initState rfl [idleInput]
    (by intro inp hi; simp [idleInput] at hi ⊢; rw [hi]; simp [idleInput])
  exact ⟨rfl, h.2.1, h.2.2.2⟩

/-! ### C7: edits have no effect while running -/

/-- C7: while the simulation is running (and stays running through the
frame, i.e. no F1 event), paint, erase and clear have no observable effect
on the grid: the frame changes the cell array exactly when the tick
counter exceeds the threshold, and then only via the generation step. -/
theorem running_blocks_edits (s : SimState) (inp : FrameInput)
    (h : s.s_started = true) (hf1 : Event.keyF1 ∉ inp.events) :
    (frame inp s).cells =
      if s.tick > (postEvents inp s).max_tick then stepGrid s.cells else s.cells := by
  obtain ⟨h1, _, h3⟩ := postEvents_no_f1 inp.events hf1 s
  have hstart : (postEvents inp s).s_started = true := h1.trans h
  have hcells : (postEvents inp s).cells = s.cells := h3 h
  show (simPhase (editPhase inp (postEvents inp s))).cells = _
  rw [simPhase_cells, editPhase_started, editPhase_tick, editPhase_max_tick,
    editPhase_cells_of_started hstart, hcells, postEvents_tick, hstart]
  simp

theorem running_blocks_edits_witness :
    runningState.s_started = true ∧ Event.keyF1 ∉ idleInput.events ∧
    (frame idleInput runningState).cells =
      if runningState.tick > (postEvents idleInput runningState).max_tick then
        stepGrid runningState.cells
      else runningState.cells :=
  ⟨rfl, by simp [idleInput],
    running_blocks_edits runningState idleInput rfl (by simp [idleInput])⟩

/-! ### C8: the speed floor -/

lemma processEvent_max_tick_ge {s : SimState} (h : 1 ≤ s.max_tick) (e : Event) :
    1 ≤ (processEvent s e).max_tick := by
  cases e <;> unfold processEvent <;> dsimp only <;>
    (try split_ifs) <;> (try dsimp only) <;> omega

/-- C8: starting from any threshold at least 1 (in particular the initial
`max_tick = 1`), any sequence of scroll-wheel events keeps the threshold
at least 1; a single decrease step lowers it by one but floors it at 1. -/
theorem speed_floor (s : SimState) (h : 1 ≤ s.max_tick) (ys : List Int) :
    1 ≤ ((ys.map Event.wheel).foldl processEvent s).max_tick ∧
    (∀ y : Int, 0 < y →
      (processEvent s (Event.wheel y)).max_tick = max (s.max_tick - 1) 1) := by
  constructor
  · induction ys generalizing s with
    | nil => exact h
    | cons y rest ih =>
      rw [List.map_cons, List.foldl_cons]
      exact ih _ (processEvent_max_tick_ge h (Event.wheel y))
  · intro y hy
    unfold processEvent
    dsimp only
    rw [if_neg (by omega), if_pos hy]
    split_ifs <;> (try dsimp only) <;> omega

theorem speed_floor_witness :
    1 ≤ initState.max_tick ∧
    1 ≤ (([1, 1, 1].map Event.wheel).foldl processEvent initState).max_tick ∧
    (processEvent initState (Event.wheel 1)).max_tick = max (initState.max_tick - 1) 1 := by
  have h := speed_floor initState (by decide) [1, 1, 1]
  exact ⟨by decide, h.1, h.2 1 (by decide)⟩

/-! ### C10: cell bytes stay 0 or 1 across frames -/

lemma stepGrid_bytes01 {g : Grid} (h : Bytes01 g) : Bytes01 (stepGrid g) := by
  intro j
  by_cases hj : j < GRID_WIDTH * GRID_HEIGHT
  · have hx : j % GRID_WIDTH < GRID_WIDTH := Nat.mod_lt _ (by decide)
    have hy : j / GRID_WIDTH < GRID_HEIGHT := by
      unfold GRID_WIDTH GRID_HEIGHT at *
      omega
    have hstep := stepGrid_eq_lifeNext g h (j % GRID_WIDTH) (j / GRID_WIDTH) hx hy
    rw [Nat.mod_add_div] at hstep
    rw [hstep]
    unfold lifeNext
    split_ifs <;> simp
  · rw [stepGrid_eq, if_neg hj]
    exact h j

lemma setCell_bytes01 {g : Grid} (h : Bytes01 g) (i : Nat) {v : Nat}
    (hv : v = 0 ∨ v = 1) : Bytes01 (setCell g i v) := by
  intro j
  simp only [setCell]
  split_ifs
  · exact hv
  · exact h j

lemma processEvent_bytes01 {s : SimState} (h : Bytes01 s.cells) (e : Event) :
    Bytes01 (processEvent s e).cells := by
  cases e with
  | keyF1 => unfold processEvent; dsimp only; split_ifs <;> exact h
  | keyF2 =>
    unfold processEvent
    dsimp only
    split_ifs
    · intro i
      dsimp only
      split_ifs
      · exact Or.inl rfl
      · exact h i
    · exact h
  | mouseDownLeft => exact h
  | mouseDownRight => exact h
  | mouseUpLeft => exact h
  | mouseUpRight => exact h
  | wheel y => unfold processEvent; dsimp only; split_ifs <;> exact h

lemma postEvents_bytes01 :
    ∀ (es : List Event) (s : SimState), Bytes01 s.cells →
      Bytes01 ((es.foldl processEvent s).cells) := by
  intro es
  induction es with
  | nil => intro s h; exact h
  | cons e rest ih =>
    intro s h
    rw [List.foldl_cons]
    exact ih _ (processEvent_bytes01 h e)

lemma editPhase_bytes01 (inp : FrameInput) {s : SimState} (h : Bytes01 s.cells) :
    Bytes01 (editPhase inp s).cells := by
  unfold editPhase
  split_ifs <;> (try dsimp only)
  · exact h
  · exact setCell_bytes01 h _ (Or.inr rfl)
  · exact setCell_bytes01 h _ (Or.inl rfl)
  · exact h

lemma simPhase_bytes01 {s : SimState} (h : Bytes01 s.cells) :
    Bytes01 (simPhase s).cells := by
  rw [simPhase_cells]
  split_ifs
  · exact stepGrid_bytes01 h
  · exact h

lemma frame_bytes01 (inp : FrameInput) {s : SimState} (h : Bytes01 s.cells) :
    Bytes01 (frame inp s).cells := by
  have heq : (frame inp s).cells = (simPhase (editPhase inp (postEvents inp s))).cells := rfl
  rw [heq]
  exact simPhase_bytes01 (editPhase_bytes01 inp (postEvents_bytes01 inp.events s h))

/-- C10: starting from any grid whose bytes are all 0 or 1 (in particular
the zero-initialized startup grid), any sequence of frames consisting of
paint, erase, clear, wheel and start/stop inputs and completed generation
steps leaves every cell byte exactly 0 or 1; paint writes exactly 1, erase
and clear write exactly 0, and the commit pass turns every byte carrying a
pending `CELL_REVIVE` bit into exactly 1 and every byte carrying only a
pending `CELL_DIE` bit into exactly 0, so no pending bits survive a
completed frame. -/
theorem cell_bytes_stay_zero_or_one (s : SimState) (hs : Bytes01 s.cells)
    (inps : List FrameInput) :
    Bytes01 ((applyFrames inps s).cells) ∧
    Bytes01 initState.cells ∧
    (∀ inp (t : SimState), t.s_started = false → t.add_btn_down = true →
      (editPhase inp t).cells
        (inp.mouseX / PIXEL_SIZE + GRID_WIDTH * (inp.mouseY / PIXEL_SIZE)) = 1) ∧
    (∀ inp (t : SimState), t.s_started = false → t.add_btn_down = false →
      t.rem_btn_down = true →
      (editPhase inp t).cells
        (inp.mouseX / PIXEL_SIZE + GRID_WIDTH * (inp.mouseY / PIXEL_SIZE)) = 0) ∧
    (∀ (t : SimState) (i : Nat), t.s_started = false → i < GRID_WIDTH * GRID_HEIGHT →
      (processEvent t Event.keyF2).cells i = 0) ∧
    (∀ b, b &&& CELL_REVIVE ≠ 0 → commitCell b = 1) ∧
    (∀ b, b &&& CELL_REVIVE = 0 → b &&& CELL_DIE ≠ 0 → commitCell b = 0) := by
  refine ⟨?_, fun _ => Or.inl rfl, ?_, ?_, ?_, ?_, ?_⟩
  · induction inps generalizing s with
    | nil => exact hs
    | cons inp rest ih =>
      show Bytes01 ((applyFrames rest (frame inp s)).cells)
      exact ih _ (frame_bytes01 inp hs)
  · intro inp t h1 h2
    simp [editPhase, h1, h2, setCell, CELL_ALIVE]
  · intro inp t h1 h2 h3
    simp [editPhase, h1, h2, h3, setCell]
  · intro t i h1 h2
    simp [processEvent, h1, h2]
  · intro b hb
    unfold commitCell
    rw [if_pos (by simpa using hb)]
    rfl
  · intro b hb1 hb2
    unfold commitCell
    rw [if_neg (by simpa using hb1), if_pos (by simpa using hb2)]

theorem cell_bytes_stay_zero_or_one_witness :
    Bytes01 initState.cells ∧
    Bytes01 ((applyFrames [idleInput] initState).cells) ∧
    commitCell 2 = 1 ∧ commitCell 4 = 0 := by
  have h := cell_bytes_stay_zero_or_one initState (fun _ => Or.inl rfl) [idleInput]
  exact ⟨h.2.1, h.1, h.2.2.2.2.2.1 2 (by decide), h.2.2.2.2.2.2 4 (by decide) (by decide)⟩

/-! ### C9: the blinker oscillator -/

/-- The grid holding exactly three alive cells in a horizontal line
centered at `(x, y)`: cells `(x-1,y)`, `(x,y)`, `(x+1,y)` are 1, every
other byte is 0. -/
def hBlinker (x y : Nat) : Grid :=
  fun i =>
    if i = (x - 1) + GRID_WIDTH * y ∨ i = x + GRID_WIDTH * y ∨
        i = (x + 1) + GRID_WIDTH * y then 1
    else 0

/-- The grid holding exactly three alive cells in a vertical line centered
at `(x, y)`. -/
def vBlinker (x y : Nat) : Grid :=
  fun i =>
    if i = x + GRID_WIDTH * (y - 1) ∨ i = x + GRID_WIDTH * y ∨
        i = x + GRID_WIDTH * (y + 1) then 1
    else 0

lemma alive_ite (p : Prop) [Decidable p] : alive (if p then 1 else 0) = decide p := by
  split_ifs with h
  · rw [decide_eq_true h]
    decide
  · rw [decide_eq_false h]
    decide

lemma hBlinker_bytes01 (x y : Nat) : Bytes01 (hBlinker x y) := by
  intro i
  unfold hBlinker
  split_ifs
  · exact Or.inr rfl
  · exact Or.inl rfl

lemma vBlinker_bytes01 (x y : Nat) : Bytes01 (vBlinker x y) := by
  intro i
  unfold vBlinker
  split_ifs
  · exact Or.inr rfl
  · exact Or.inl rfl

lemma specAlive_hB {x y : Nat} (hx1 : 2 ≤ x) (hx2 : x + 2 < GRID_WIDTH)
    (hy1 : 2 ≤ y) (hy2 : y + 2 < GRID_HEIGHT) (u v : Int) :
    specAlive (hBlinker x y) u v =
      decide (v = (y : Int) ∧ (u = (x : Int) - 1 ∨ u = (x : Int) ∨ u = (x : Int) + 1)) := by
  by_cases hb : 0 ≤ u ∧ u < (GRID_WIDTH : Int) ∧ 0 ≤ v ∧ v < (GRID_HEIGHT : Int)
  · rw [specAlive_in _ hb]
    unfold hBlinker
    rw [alive_ite, decide_eq_decide]
    unfold GRID_WIDTH GRID_HEIGHT at *
    omega
  · rw [specAlive_out _ hb]
    symm
    rw [decide_eq_false]
    unfold GRID_WIDTH GRID_HEIGHT at *
    omega

lemma specAlive_vB {x y : Nat} (hx1 : 2 ≤ x) (hx2 : x + 2 < GRID_WIDTH)
    (hy1 : 2 ≤ y) (hy2 : y + 2 < GRID_HEIGHT) (u v : Int) :
    specAlive (vBlinker x y) u v =
      decide (u = (x : Int) ∧ (v = (y : Int) - 1 ∨ v = (y : Int) ∨ v = (y : Int) + 1)) := by
  by_cases hb : 0 ≤ u ∧ u < (GRID_WIDTH : Int) ∧ 0 ≤ v ∧ v < (GRID_HEIGHT : Int)
  · rw [specAlive_in _ hb]
    unfold vBlinker
    rw [alive_ite, decide_eq_decide]
    unfold GRID_WIDTH GRID_HEIGHT at *
    omega
  · rw [specAlive_out _ hb]
    symm
    rw [decide_eq_false]
    unfold GRID_WIDTH GRID_HEIGHT at *
    omega

set_option maxHeartbeats 4000000 in
lemma step_hBlinker (x y : Nat) (hx1 : 2 ≤ x) (hx2 : x + 2 < GRID_WIDTH)
    (hy1 : 2 ≤ y) (hy2 : y + 2 < GRID_HEIGHT) :
    stepGrid (hBlinker x y) = vBlinker x y := by
  funext j
  by_cases hj : j < GRID_WIDTH * GRID_HEIGHT
  · have hx' : j % GRID_WIDTH < GRID_WIDTH := Nat.mod_lt _ (by decide)
    have hy' : j / GRID_WIDTH < GRID_HEIGHT := by
      unfold GRID_WIDTH GRID_HEIGHT at *
      omega
    have hstep := stepGrid_eq_lifeNext (hBlinker x y) (hBlinker_bytes01 x y)
      (j % GRID_WIDTH) (j / GRID_WIDTH) hx' hy'
    rw [Nat.mod_add_div] at hstep
    rw [hstep]
    clear hstep hx' hy'
    unfold lifeNext specLiveNeighbors mooreOffsets
    simp only [List.countP_cons, List.countP_nil, add_zero]
    simp only [specAlive_hB hx1 hx2 hy1 hy2]
    conv_lhs => rw [hBlinker]
    rw [alive_ite]
    rw [vBlinker]
    simp only [decide_eq_true_eq]
    unfold GRID_WIDTH GRID_HEIGHT at *
    split_ifs <;> omega
  · rw [stepGrid_eq, if_neg hj]
    unfold hBlinker vBlinker
    rw [if_neg (by unfold GRID_WIDTH GRID_HEIGHT at *; omega),
      if_neg (by unfold GRID_WIDTH GRID_HEIGHT at *; omega)]

set_option maxHeartbeats 4000000 in
lemma step_vBlinker (x y : Nat) (hx1 : 2 ≤ x) (hx2 : x + 2 < GRID_WIDTH)
    (hy1 : 2 ≤ y) (hy2 : y + 2 < GRID_HEIGHT) :
    stepGrid (vBlinker x y) = hBlinker x y := by
  funext j
  by_cases hj : j < GRID_WIDTH * GRID_HEIGHT
  · have hx' : j % GRID_WIDTH < GRID_WIDTH := Nat.mod_lt _ (by decide)
    have hy' : j / GRID_WIDTH < GRID_HEIGHT := by
      unfold GRID_WIDTH GRID_HEIGHT at *
      omega
    have hstep := stepGrid_eq_lifeNext (vBlinker x y) (vBlinker_bytes01 x y)
      (j % GRID_WIDTH) (j / GRID_WIDTH) hx' hy'
    rw [Nat.mod_add_div] at hstep
    rw [hstep]
    clear hstep hx' hy'
    unfold lifeNext specLiveNeighbors mooreOffsets
    simp only [List.countP_cons, List.countP_nil, add_zero]
    simp only [specAlive_vB hx1 hx2 hy1 hy2]
    conv_lhs => rw [vBlinker]
    rw [alive_ite]
    rw [hBlinker]
    simp only [decide_eq_true_eq]
    unfold GRID_WIDTH GRID_HEIGHT at *
    split_ifs <;> omega
  · rw [stepGrid_eq, if_neg hj]
    unfold hBlinker vBlinker
    rw [if_neg (by unfold GRID_WIDTH GRID_HEIGHT at *; omega),
      if_neg (by unfold GRID_WIDTH GRID_HEIGHT at *; omega)]

/-- C9: a horizontal 3-cell blinker away from the grid edges becomes,
after one generation advance, the vertical 3-cell blinker centered on the
same middle cell, and a second generation advance restores the original
horizontal line: a period-2 round trip. -/
theorem blinker_period_two (x y : Nat) (hx1 : 2 ≤ x) (hx2 : x + 2 < GRID_WIDTH)
    (hy1 : 2 ≤ y) (hy2 : y + 2 < GRID_HEIGHT) :
    stepGrid (hBlinker x y) = vBlinker x y ∧
    stepGrid (stepGrid (hBlinker x y)) = hBlinker x y := by
  have h1 := step_hBlinker x y hx1 hx2 hy1 hy2
  have h2 := step_vBlinker x y hx1 hx2 hy1 hy2
  exact ⟨h1, by rw [h1, h2]⟩

theorem blinker_period_two_witness :
    (2 ≤ 2 ∧ 2 + 2 < GRID_WIDTH ∧ 2 + 2 < GRID_HEIGHT) ∧
    stepGrid (hBlinker 2 2) = vBlinker 2 2 ∧
    stepGrid (stepGrid (hBlinker 2 2)) = hBlinker 2 2 :=
  ⟨⟨le_refl 2, by decide, by decide⟩,
    blinker_period_two 2 2 (le_refl 2) (by decide) (le_refl 2) (by decide)⟩

end GameOfLife
